import Mathlib

/-!
Shallow embedding of `plugin/deep_segmentation_framework/processing/map_processor.py`
(qgis-plugin-deepness).  Map-coordinate arithmetic (Python floats) is modelled over `ℚ`,
pixel arithmetic over `ℤ`/`ℕ`.  Python's `round` (round half to even), `int()`
(truncation toward zero), `//` (floor division) and `%` (floor modulus, which agrees
with `Int.emod` for positive divisors) are modelled explicitly.
-/

namespace Deepness

/-- Python `round()` applied to a (real-valued) quantity, modelled on `ℚ`:
round half to even (banker's rounding).  Used by the source at
`map_processor.py` lines 180-188 (pixel sizes, bin numbers) and 477-488
(extended-extent pixel sizes). -/
def pyRound (q : ℚ) : ℤ :=
  if q - ⌊q⌋ < 1/2 then ⌊q⌋
  else if 1/2 < q - ⌊q⌋ then ⌊q⌋ + 1
  else if ⌊q⌋ % 2 = 0 then ⌊q⌋ else ⌊q⌋ + 1

/-- Python `int()` applied to a (real-valued) quantity, modelled on `ℚ`:
truncation toward zero.  Used by `round_extent_to_rlayer_grid`
(`map_processor.py` lines 512-515). -/
def pyInt (q : ℚ) : ℤ :=
  if 0 ≤ q then ⌊q⌋ else -⌊-q⌋

/-- An axis-aligned rectangle in CRS units (`QgsRectangle`). -/
structure QRect where
  xMin : ℚ
  yMin : ℚ
  xMax : ℚ
  yMax : ℚ
deriving DecidableEq

/-- Width of a `QgsRectangle` in CRS units. -/
def QRect.width (r : QRect) : ℚ := r.xMax - r.xMin

/-- Height of a `QgsRectangle` in CRS units. -/
def QRect.height (r : QRect) : ℚ := r.yMax - r.yMin

/-- `QgsRectangle.intersect`: the largest common rectangle of the two
arguments, or the null rectangle (all zeros) when they do not overlap. -/
def QRect.intersect (a b : QRect) : QRect :=
  let x1 := max a.xMin b.xMin
  let x2 := min a.xMax b.xMax
  let y1 := max a.yMin b.yMin
  let y2 := min a.yMax b.yMax
  if x1 ≤ x2 ∧ y1 ≤ y2 then ⟨x1, y1, x2, y2⟩ else ⟨0, 0, 0, 0⟩

/-- A rectangle of pixel indices with inclusive bounds.  The source builds the
numpy slice `np.s_[yMin : yMax + 1, xMin : xMax + 1]` from these bounds
(`map_processor.py` line 130). -/
structure SliceRect where
  yMin : ℤ
  yMax : ℤ
  xMin : ℤ
  xMax : ℤ
deriving DecidableEq

/-- Pixel `(x, y)` lies in the inclusive pixel rectangle `r`. -/
def SliceRect.containsPx (r : SliceRect) (x y : ℤ) : Prop :=
  r.xMin ≤ x ∧ x ≤ r.xMax ∧ r.yMin ≤ y ∧ y ≤ r.yMax

instance (r : SliceRect) (x y : ℤ) : Decidable (r.containsPx x y) := by
  unfold SliceRect.containsPx; infer_instance

/-- `TileParams.get_slice_on_full_image_for_copying` (`map_processor.py` lines
104-131).  `stride_px` is `inference_parameters.processing_stride_px` and
`start_pixel_x = x_bin_number * stride_px` (lines 84-86).  Python `//` is
floor division, hence `Int.fdiv`. -/
def get_slice_on_full_image_for_copying
    (tile_size_px stride_px x_bin_number y_bin_number x_bins_number y_bins_number : ℤ) :
    SliceRect :=
  let half_overlap := (tile_size_px - stride_px).fdiv 2
  let start_pixel_x := x_bin_number * stride_px
  let start_pixel_y := y_bin_number * stride_px
  let x_min := start_pixel_x + half_overlap
  let x_max := start_pixel_x + tile_size_px - half_overlap - 1
  let y_min := start_pixel_y + half_overlap
  let y_max := start_pixel_y + tile_size_px - half_overlap - 1
  let x_min := if x_bin_number = 0 then x_min - half_overlap else x_min
  let y_min := if y_bin_number = 0 then y_min - half_overlap else y_min
  let x_max := if x_bin_number = x_bins_number - 1 then x_max + half_overlap else x_max
  let y_max := if y_bin_number = y_bins_number - 1 then y_max + half_overlap else y_max
  ⟨y_min, y_max, x_min, x_max⟩

/-- `TileParams.get_slice_on_tile_image_for_copying` (`map_processor.py` lines
133-145): the full-image copy region translated into tile-local pixel
coordinates (each slice start/stop shifted by the tile's start pixel). -/
def get_slice_on_tile_image_for_copying
    (tile_size_px stride_px x_bin_number y_bin_number x_bins_number y_bins_number : ℤ) :
    SliceRect :=
  let r := get_slice_on_full_image_for_copying
    tile_size_px stride_px x_bin_number y_bin_number x_bins_number y_bins_number
  ⟨r.yMin - y_bin_number * stride_px, r.yMax - y_bin_number * stride_px,
   r.xMin - x_bin_number * stride_px, r.xMax - x_bin_number * stride_px⟩

example : pyRound (5/2) = 2 := by norm_num [pyRound]
example : pyRound (7/2) = 4 := by norm_num [pyRound]
example : pyRound (3 : ℚ) = 3 := by norm_num [pyRound]
example : pyInt (-1/2) = 0 := by norm_num [pyInt]
example : pyInt (-3/2) = -1 := by norm_num [pyInt]
example : pyInt (3/2) = 1 := by norm_num [pyInt]

example :
    get_slice_on_full_image_for_copying 4 2 0 0 2 2 = ⟨0, 2, 0, 2⟩ := by decide
example :
    get_slice_on_full_image_for_copying 4 2 1 0 2 2 = ⟨0, 2, 3, 5⟩ := by decide
example :
    get_slice_on_tile_image_for_copying 4 2 1 1 2 2 = ⟨1, 3, 1, 3⟩ := by decide

/-- `MapProcessor.round_extent_to_rlayer_grid` (`map_processor.py` lines
499-518): each of the four bounds `b` is replaced by
`grid_start + int((b - grid_start) / grid_spacing) * grid_spacing`,
where `int()` is Python truncation toward zero.  `grid_spacing` is
`(rlayer.rasterUnitsPerPixelX(), rlayer.rasterUnitsPerPixelY())` and
`grid_start` is the minimum corner of the raster layer's extent. -/
def round_extent_to_rlayer_grid (extent : QRect) (grid_start grid_spacing : ℚ × ℚ) :
    QRect :=
  let x_min := grid_start.1 + (pyInt ((extent.xMin - grid_start.1) / grid_spacing.1) : ℚ) * grid_spacing.1
  let x_max := grid_start.1 + (pyInt ((extent.xMax - grid_start.1) / grid_spacing.1) : ℚ) * grid_spacing.1
  let y_min := grid_start.2 + (pyInt ((extent.yMin - grid_start.2) / grid_spacing.2) : ℚ) * grid_spacing.2
  let y_max := grid_start.2 + (pyInt ((extent.yMax - grid_start.2) / grid_spacing.2) : ℚ) * grid_spacing.2
  ⟨x_min, y_min, x_max, y_max⟩

/-- The intermediate `tmp_extent` of
`MapProcessor._calculate_extended_processing_extent` (`map_processor.py` lines
461-471): the base extent padded on every side by
`(processing_overlap_px // 2) * rlayer_units_per_pixel` and clamped to the
raster layer's extent. -/
def padded_clamped_extent (base_extent rlayer_extent : QRect)
    (processing_overlap_px : ℤ) (rlayer_units_per_pixel : ℚ) : QRect :=
  let additional_pixels := processing_overlap_px.fdiv 2
  let additional_pixels_in_units := (additional_pixels : ℚ) * rlayer_units_per_pixel
  QRect.intersect
    ⟨base_extent.xMin - additional_pixels_in_units,
     base_extent.yMin - additional_pixels_in_units,
     base_extent.xMax + additional_pixels_in_units,
     base_extent.yMax + additional_pixels_in_units⟩
    rlayer_extent

/-- `MapProcessor._calculate_extended_processing_extent` (`map_processor.py`
lines 460-497).  After padding and clamping (see `padded_clamped_extent`) the
maximum x/y bounds are grown by the number of missing pixels so that the
pixel width/height becomes `tile_size_px + N * stride_px`. -/
def calculate_extended_processing_extent (base_extent rlayer_extent : QRect)
    (processing_overlap_px tile_size_px stride_px : ℤ)
    (rlayer_units_per_pixel : ℚ) : QRect :=
  let tmp_extent := padded_clamped_extent base_extent rlayer_extent
    processing_overlap_px rlayer_units_per_pixel
  let current_x_pixels := pyRound (tmp_extent.width / rlayer_units_per_pixel)
  let missing_pixels_x :=
    if current_x_pixels ≤ tile_size_px then tile_size_px - current_x_pixels
    else (stride_px - (current_x_pixels - tile_size_px) % stride_px) % stride_px
  let current_y_pixels := pyRound (tmp_extent.height / rlayer_units_per_pixel)
  let missing_pixels_y :=
    if current_y_pixels ≤ tile_size_px then tile_size_px - current_y_pixels
    else (stride_px - (current_y_pixels - tile_size_px) % stride_px) % stride_px
  ⟨tmp_extent.xMin, tmp_extent.yMin,
   tmp_extent.xMax + (missing_pixels_x : ℚ) * rlayer_units_per_pixel,
   tmp_extent.yMax + (missing_pixels_y : ℚ) * rlayer_units_per_pixel⟩

/-- Modelled from the spec: the `ProcessedAreaType` enumeration lives in the
missing module `common/inference_parameters.py`; following the spec it has the
members `ENTIRE_LAYER`, `FROM_POLYGONS` and `VISIBLE_PART`.  The extra
constructor `otherValue` stands for any non-member value reaching the
dynamically typed dispatch of
`MapProcessor._calculate_base_processing_extent_in_rlayer_crs`, whose final
`else` branch handles exactly such values. -/
inductive ProcessedAreaType
| entireLayer
| fromPolygons
| visiblePart
| otherValue
deriving DecidableEq

/-- A raised Python exception: either a failed `assert` statement or a generic
`Exception(msg)`. -/
inductive PyErr
| assertionError
| exceptionMsg (msg : String)
deriving DecidableEq

/-- `MapProcessor._calculate_base_processing_extent_in_rlayer_crs`
(`map_processor.py` lines 422-458).  The externally resolved geometries are
passed as inputs: `mask_bbox_in_rlayer_crs` stands for the bounding box of the
first geometry of the mask layer transformed to the raster CRS (lines
435-443), and `canvas_extent_in_rlayer_crs` for the visible canvas extent
transformed to the raster CRS (lines 446-451).  The source guards the mask
layer name with `assert mask_layer_name is not None` (line 434) and raises
`Exception("Invalid processed are type!")` for an unsupported mode (line
453).  The resulting expected extent is rounded to the raster grid and
intersected with the raster extent (lines 455-456). -/
def calculate_base_processing_extent_in_rlayer_crs
    (processed_area_type : ProcessedAreaType)
    (mask_layer_name : Option String)
    (mask_bbox_in_rlayer_crs canvas_extent_in_rlayer_crs rlayer_extent : QRect)
    (grid_start grid_spacing : ℚ × ℚ) : Except PyErr QRect :=
  let expected : Except PyErr QRect :=
    match processed_area_type with
    | .entireLayer => .ok rlayer_extent
    | .fromPolygons =>
      match mask_layer_name with
      | none => .error .assertionError
      | some _ => .ok mask_bbox_in_rlayer_crs
    | .visiblePart => .ok canvas_extent_in_rlayer_crs
    | .otherValue => .error (.exceptionMsg "Invalid processed are type!")
  match expected with
  | .error e => .error e
  | .ok ext =>
    .ok (QRect.intersect (round_extent_to_rlayer_grid ext grid_start grid_spacing)
      rlayer_extent)

/-- The tile-count formula of `MapProcessor.__init__` (`map_processor.py`
lines 185-188): `round((img_size_pixels - tile_size_px) / stride_px) + 1`,
with Python float division and `round()`. -/
def bins_number (img_size_pixels tile_size_px stride_px : ℤ) : ℤ :=
  pyRound (((img_size_pixels - tile_size_px : ℤ) : ℚ) / (stride_px : ℚ)) + 1

/-- The degenerate-grid check of `MapProcessor._process` (`map_processor.py`
lines 295-296): a total tile count below one raises a generic `Exception`. -/
def total_tiles_check (total_tiles : ℤ) : Except PyErr Unit :=
  if total_tiles < 1 then .error (.exceptionMsg "TODO! Add support for partial tiles!")
  else .ok ()

/-- An observable event of the stitching loop of `MapProcessor._process`
(`map_processor.py` lines 300-323): a `setProgress` call or the processing of
one tile. -/
inductive ProgressEvent
| progress (value : ℚ)
| tile (tile_no : ℕ)
deriving DecidableEq

/-- The body of the double loop of `MapProcessor._process` (`map_processor.py`
lines 300-323), flattened over the row-major tile number
`tile_no = y_bin_number * x_bins_number + x_bin_number`, which takes the
consecutive values `0, 1, ...` over the iterations.  Each iteration first
checks `isCanceled()` (returning immediately when it is set), then calls
`setProgress(tile_no / total_tiles * 100)` and then processes the tile.
`remaining` counts the iterations still to run. -/
def process_loop (total_tiles : ℕ) (canceled : ℕ → Bool) :
    (remaining tile_no : ℕ) → List ProgressEvent
  | 0, _ => []
  | remaining + 1, tile_no =>
    if canceled tile_no then []
    else
      .progress ((tile_no : ℚ) / (total_tiles : ℚ) * 100) :: .tile tile_no ::
        process_loop total_tiles canceled remaining (tile_no + 1)

/-- Trace of observable events of one `MapProcessor._process` run over an
`x_bins_number × y_bins_number` grid with the given cancellation flag. -/
def process_trace (x_bins_number y_bins_number : ℕ) (canceled : ℕ → Bool) :
    List ProgressEvent :=
  process_loop (x_bins_number * y_bins_number) canceled
    (x_bins_number * y_bins_number) 0

/-- The value of a progress event, used to extract the reported progress
sequence from a trace. -/
def progressValue : ProgressEvent → Option ℚ
  | .progress v => some v
  | .tile _ => none

/-- A single-channel numpy array (`uint8`, 2-D) of known shape; reads outside
the stored shape are unspecified but total. -/
structure NpImg2 where
  rows : ℕ
  cols : ℕ
  pix : ℕ → ℕ → ℕ

/-- The numpy 2-D sliced assignment
`full_result_img[rf] = tile_result[rt]` with inclusive-bound rectangles `rf`,
`rt` (the stops being `Max + 1`), performed by
`MapProcessor._set_mask_on_full_img` (`map_processor.py` line 333).  Numpy
slice semantics for the (here non-negative) bounds: a slice `a : b` on an
axis of length `n` selects indices `a ≤ i < min b n`; the assignment
succeeds when the two selected blocks have equal axis lengths or the source
axis has length 1 (numpy broadcasting), and raises `ValueError`
("could not broadcast input array") otherwise, leaving the target buffer
unchanged. -/
def np_block_assign (full_result_img tile_result : NpImg2) (rf rt : SliceRect) :
    Except String NpImg2 :=
  let ys := min (rf.yMin.toNat) full_result_img.rows
  let ye := min ((rf.yMax + 1).toNat) full_result_img.rows
  let xs := min (rf.xMin.toNat) full_result_img.cols
  let xe := min ((rf.xMax + 1).toNat) full_result_img.cols
  let tys := min (rt.yMin.toNat) tile_result.rows
  let tye := min ((rt.yMax + 1).toNat) tile_result.rows
  let txs := min (rt.xMin.toNat) tile_result.cols
  let txe := min ((rt.xMax + 1).toNat) tile_result.cols
  if (tye - tys = ye - ys ∨ tye - tys = 1) ∧ (txe - txs = xe - xs ∨ txe - txs = 1) then
    .ok
      { rows := full_result_img.rows
        cols := full_result_img.cols
        pix := fun y x =>
          if ys ≤ y ∧ y < ye ∧ xs ≤ x ∧ x < xe then
            tile_result.pix
              (tys + (if tye - tys = 1 then 0 else y - ys))
              (txs + (if txe - txs = 1 then 0 else x - xs))
          else full_result_img.pix y x }
  else .error "could not broadcast input array"

/-- `MapProcessor._set_mask_on_full_img` (`map_processor.py` lines 330-333):
computes the two ROI slices and performs
`full_result_img[roi_slice_on_full_image] = tile_result[roi_slice_on_tile_image]`
(see `np_block_assign` for the numpy assignment semantics). -/
def set_mask_on_full_img (full_result_img tile_result : NpImg2)
    (tile_size_px stride_px x_bin_number y_bin_number x_bins_number y_bins_number : ℤ) :
    Except String NpImg2 :=
  np_block_assign full_result_img tile_result
    (get_slice_on_full_image_for_copying
      tile_size_px stride_px x_bin_number y_bin_number x_bins_number y_bins_number)
    (get_slice_on_tile_image_for_copying
      tile_size_px stride_px x_bin_number y_bin_number x_bins_number y_bins_number)

/-- A 3-D numpy image: rows of columns of channel lists (`uint8` values). -/
def Img3 : Type := List (List (List ℕ))

/-- A 2-D numpy mask: rows of pixel values. -/
def Img2 : Type := List (List ℕ)

set_option linter.unusedVariables false in
/-- `MapProcessor._process_tile` (`map_processor.py` lines 520-541), with the
loaded model's `process` method passed as the function
`model_wrapper_process`.  Following the source line by line:
`tile_img = copy.copy(tile_img)` rebinds the name to a freshly copied buffer,
`tile_img = tile_img[:, :, 0]` makes the name a view of channel 0 of that
copy, and the two masked assignments write through that view into the copy,
so the caller's array (returned as the first component) is never written.
The function returns at line 538; the call
`result = self.model_wrapper.process(tile_img)` at line 540 stands after that
`return` statement, so `model_wrapper_process` is never applied. -/
def process_tile (model_wrapper_process : Img3 → Img2) (tile_img : Img3) :
    Img3 × Img2 :=
  let copied : Img3 := tile_img.map (fun row => row.map (fun px => px.map id))
  let step1 : Img3 := copied.map (fun row => row.map (fun px =>
    match px with
    | [] => []
    | v :: rest => (if v < 255 then 0 else v) :: rest))
  let step2 : Img3 := step1.map (fun row => row.map (fun px =>
    match px with
    | [] => []
    | v :: rest => (if 255 ≤ v then 255 else v) :: rest))
  let result : Img2 := step2.map (fun row => row.map (fun px => px.headD 0))
  (tile_img, result)

/-- A node of the contour forest encoded by the `cv2.findContours` `RETR_TREE`
hierarchy: a contour (its list of points) together with its child contours.
In the hierarchy array walked by
`MapProcessor._convert_cv_contours_to_features` (`map_processor.py` lines
336-370), `hierarchy[i][0]` is the next sibling and `hierarchy[i][2]` the
first child; the sibling chains of such a hierarchy are the lists of children
below. -/
inductive CNode
| node (contour : List (ℤ × ℤ)) (children : List CNode)

/-- The contour stored at a node. -/
def CNode.contour : CNode → List (ℤ × ℤ)
  | .node c _ => c

/-- The children of a node. -/
def CNode.children : CNode → List CNode
  | .node _ cs => cs

/-- `MapProcessor._convert_cv_contours_to_features` (`map_processor.py` lines
336-370), embedded over the contour forest.  The `while True` loop walks the
sibling chain `ns`; for each contour with at least 3 points it first recurses
into the children with `is_hole` toggled and a fresh `internal_holes` list,
then either appends the contour to `current_holes` (when `is_hole`) or
appends to `features` a polygon whose rings are
`[contour, *internal_holes]`.  A contour with fewer than 3 points is skipped
together with its whole subtree (the recursion sits inside the length
guard).  The mutated Python lists are threaded through as the result pair
`(features, current_holes)`. -/
def convert_siblings :
    List (List (List (ℤ × ℤ))) → List CNode → Bool → List (List (ℤ × ℤ)) →
    List (List (List (ℤ × ℤ))) × List (List (ℤ × ℤ))
  | features, [], _, current_holes => (features, current_holes)
  | features, .node contour children :: rest, is_hole, current_holes =>
    if 3 ≤ contour.length then
      let fi := convert_siblings features children (!is_hole) []
      if is_hole then convert_siblings fi.1 rest is_hole (current_holes ++ [contour])
      else convert_siblings (fi.1 ++ [contour :: fi.2]) rest is_hole current_holes
    else convert_siblings features rest is_hole current_holes

/-- Entry point as called from `MapProcessor._create_vlayer_from_mask`
(`map_processor.py` lines 378-386): the walk starts at the first top-level
contour with `is_hole = False` and empty `features` and `current_holes`. -/
def convert_cv_contours_to_features (forest : List CNode) :
    List (List (List (ℤ × ℤ))) :=
  (convert_siblings [] forest false []).1

/-- Specification-level description of the conversion: one polygon per contour
reached at even nesting depth (`is_hole = false`) having at least 3 points,
where a contour is reached only if all its ancestors have at least 3 points;
the polygon's rings are its contour followed by its immediate children with
at least 3 points (its holes).  Contours with fewer than 3 points contribute
nothing, nor do their subtrees. -/
def reached_feature_list : List CNode → Bool → List (List (List (ℤ × ℤ)))
  | [], _ => []
  | .node contour children :: rest, is_hole =>
    (if 3 ≤ contour.length then
      reached_feature_list children (!is_hole) ++
        (if is_hole then []
         else [contour :: children.filterMap (fun c =>
           if 3 ≤ c.contour.length then some c.contour else none)])
    else []) ++ reached_feature_list rest is_hole

/-! ## Theorems -/

/-- Helper: the per-pixel effect of the two masked assignments of
`_process_tile` on the red channel. -/
theorem process_tile_pixel_eq (px : List ℕ) :
    ((match (match px with
        | [] => ([] : List ℕ)
        | v :: rest => (if v < 255 then 0 else v) :: rest) with
      | [] => ([] : List ℕ)
      | v :: rest => (if 255 ≤ v then 255 else v) :: rest).headD 0)
      = if px.headD 0 < 255 then 0 else 255 := by
  rcases px with _ | ⟨v, rest⟩
  · simp
  · simp only [List.headD_cons]
    split_ifs <;> simp_all

/-- C4: `MapProcessor._process_tile` never uses the loaded neural-network
model: its result does not depend on the `model_wrapper.process` function
(the call to it stands after the `return` statement at line 538 and is
unreachable), and the returned mask is the first (red) channel with every
pixel of value at least 255 set to 255 and every other pixel set to 0. -/
theorem process_tile_bypasses_model (f g : Img3 → Img2) (img : Img3) :
    (process_tile f img).2 = (process_tile g img).2 ∧
    (process_tile f img).2 =
      img.map (fun row => row.map (fun px =>
        if px.headD 0 < 255 then 0 else 255)) := by
  refine ⟨rfl, ?_⟩
  simp only [process_tile, List.map_map]
  refine List.map_congr_left (fun row _ => ?_)
  simp only [Function.comp_apply, Function.comp_def, List.map_map]
  refine List.map_congr_left (fun px _ => ?_)
  simpa using process_tile_pixel_eq px

/-- C10: `MapProcessor._process_tile` does not mutate its input.  In the
embedding the line `tile_img = copy.copy(tile_img)` allocates a fresh buffer
and every subsequent masked assignment writes through a view of that copy, so
the array the caller passed is returned unchanged. -/
theorem process_tile_input_unchanged (f : Img3 → Img2) (img : Img3) :
    (process_tile f img).1 = img := rfl

/-- C8 (amended) : `_calculate_base_processing_extent_in_rlayer_crs` fails in
exactly two cases: a builtin `AssertionError` when mode `FROM_POLYGONS` is
selected without a mask layer name, and a generic
`Exception("Invalid processed are type!")` for an unsupported mode value;
there is no `InvalidAreaError` in the source.  For the supported modes with
their required inputs present it returns an extent without raising. -/
theorem base_extent_error_characterization
    (processed_area_type : ProcessedAreaType) (mask_layer_name : Option String)
    (mask_bbox canvas_extent rlayer_extent : QRect) (grid_start grid_spacing : ℚ × ℚ) :
    ((calculate_base_processing_extent_in_rlayer_crs processed_area_type
        mask_layer_name mask_bbox canvas_extent rlayer_extent grid_start
        grid_spacing).isOk = true ↔
      ¬(processed_area_type = .fromPolygons ∧ mask_layer_name = none) ∧
        processed_area_type ≠ .otherValue) ∧
    (processed_area_type = .fromPolygons → mask_layer_name = none →
      calculate_base_processing_extent_in_rlayer_crs processed_area_type
        mask_layer_name mask_bbox canvas_extent rlayer_extent grid_start
        grid_spacing = .error .assertionError) ∧
    (processed_area_type = .otherValue →
      calculate_base_processing_extent_in_rlayer_crs processed_area_type
        mask_layer_name mask_bbox canvas_extent rlayer_extent grid_start
        grid_spacing = .error (.exceptionMsg "Invalid processed are type!")) := by
  cases processed_area_type <;> cases mask_layer_name <;>
    simp [calculate_base_processing_extent_in_rlayer_crs, Except.isOk, Except.toBool]

/-- Witness for `base_extent_error_characterization` at a concrete input: mode
`ENTIRE_LAYER` returns an extent without raising. -/
theorem base_extent_error_characterization_witness :
    (calculate_base_processing_extent_in_rlayer_crs .entireLayer none
      ⟨0, 0, 1, 1⟩ ⟨0, 0, 1, 1⟩ ⟨0, 0, 1, 1⟩ (0, 0) (1, 1)).isOk = true :=
  (base_extent_error_characterization .entireLayer none
    ⟨0, 0, 1, 1⟩ ⟨0, 0, 1, 1⟩ ⟨0, 0, 1, 1⟩ (0, 0) (1, 1)).1.mpr (by simp)

/-- C8 counterexample to the claim as stated: with mode `FROM_POLYGONS` and no
mask layer reference the source raises the builtin `AssertionError` of the
`assert` statement at line 434, not an `InvalidAreaError` (no such class
exists anywhere in the source). -/
theorem base_extent_from_polygons_assertion_error :
    calculate_base_processing_extent_in_rlayer_crs .fromPolygons none
      ⟨0, 0, 1, 1⟩ ⟨0, 0, 1, 1⟩ ⟨0, 0, 1, 1⟩ (0, 0) (1, 1) =
      .error .assertionError := rfl

/-- Helper: the accumulating traversal of `_convert_cv_contours_to_features`
computes exactly the specification-level feature list, and the holes it
collects at odd depth are exactly the contours of the siblings with at least
3 points. -/
theorem convert_siblings_eq (features : List (List (List (ℤ × ℤ))))
    (ns : List CNode) (is_hole : Bool) (current_holes : List (List (ℤ × ℤ))) :
    convert_siblings features ns is_hole current_holes =
      (features ++ reached_feature_list ns is_hole,
       current_holes ++
         (if is_hole then
           ns.filterMap (fun c =>
             if 3 ≤ c.contour.length then some c.contour else none)
          else [])) := by
  induction features, ns, is_hole, current_holes using convert_siblings.induct with
  | case1 features is_hole current_holes =>
    simp [convert_siblings, reached_feature_list]
  | case2 features contour children rest current_holes h3 fi ihc ih =>
    have ihc' : convert_siblings features children false [] =
        (features ++ reached_feature_list children false, []) := by
      simpa using ihc
    have ih' : convert_siblings (convert_siblings features children false []).1
        rest true (current_holes ++ [contour]) =
        ((convert_siblings features children false []).1 ++
           reached_feature_list rest true,
         (current_holes ++ [contour]) ++
           rest.filterMap (fun c =>
             if 3 ≤ c.contour.length then some c.contour else none)) := by
      simpa using ih
    simp only [convert_siblings, h3, if_true, Bool.not_true, ite_true]
    rw [ih', ihc']
    simp [reached_feature_list, h3, CNode.contour, List.append_assoc]
  | case3 features contour children rest is_hole current_holes h3 fi hfalse ihc ih =>
    have hh : is_hole = false := by simpa using hfalse
    subst hh
    have ihc' : convert_siblings features children true [] =
        (features ++ reached_feature_list children true,
         children.filterMap (fun c =>
           if 3 ≤ c.contour.length then some c.contour else none)) := by
      simpa using ihc
    have ih' : convert_siblings
        ((convert_siblings features children true []).1 ++
          [contour :: (convert_siblings features children true []).2])
        rest false current_holes =
        (((convert_siblings features children true []).1 ++
           [contour :: (convert_siblings features children true []).2]) ++
          reached_feature_list rest false, current_holes) := by
      simpa using ih
    simp only [convert_siblings, h3, if_true, Bool.not_false, ite_true,
      Bool.false_eq_true, ite_false]
    rw [ih', ihc']
    simp [reached_feature_list, h3, CNode.contour, List.append_assoc]
  | case4 features contour children rest is_hole current_holes h3 ih =>
    simp only [convert_siblings, h3, ite_false, if_neg h3]
    rw [ih]
    cases is_hole <;>
      simp [reached_feature_list, h3, List.filterMap_cons, CNode.contour]

/-- C3: `_convert_cv_contours_to_features` emits exactly one polygon feature
per contour reached at even nesting depth (`is_hole = false`) with at least 3
points, whose hole rings are its immediate odd-depth children with at least 3
points; every contour with fewer than 3 points is skipped together with its
subtree (see `reached_feature_list`).  In particular a filled square contour
containing one smaller square hole contour converts to exactly one feature
with exactly one hole ring. -/
theorem convert_cv_contours_spec :
    (∀ forest : List CNode,
      convert_cv_contours_to_features forest = reached_feature_list forest false) ∧
    convert_cv_contours_to_features
        [CNode.node [(0, 0), (0, 10), (10, 10), (10, 0)]
          [CNode.node [(2, 2), (2, 8), (8, 8), (8, 2)] []]] =
      [[[(0, 0), (0, 10), (10, 10), (10, 0)], [(2, 2), (2, 8), (8, 8), (8, 2)]]] := by
  constructor
  · intro forest
    simp [convert_cv_contours_to_features, convert_siblings_eq]
  · simp [convert_cv_contours_to_features, convert_siblings_eq,
      reached_feature_list, CNode.contour]

/-- Helper: progress values reported later in the loop are at least
`tile_no / total_tiles * 100`, and the reported sequence is sorted. -/
theorem process_loop_progress_sorted (total_tiles : ℕ) (canceled : ℕ → Bool) :
    ∀ remaining tile_no,
      List.Pairwise (· ≤ ·)
        ((process_loop total_tiles canceled remaining tile_no).filterMap progressValue) ∧
      ∀ q ∈ (process_loop total_tiles canceled remaining tile_no).filterMap progressValue,
        (tile_no : ℚ) / (total_tiles : ℚ) * 100 ≤ q := by
  intro remaining
  induction remaining with
  | zero => intro tile_no; simp [process_loop]
  | succ r ih =>
    intro tile_no
    by_cases hc : canceled tile_no
    · simp [process_loop, hc]
    · obtain ⟨ihp, ihb⟩ := ih (tile_no + 1)
      have h1 : (tile_no : ℚ) ≤ ((tile_no + 1 : ℕ) : ℚ) := by push_cast; linarith
      have hstep : (tile_no : ℚ) / (total_tiles : ℚ) * 100 ≤
          ((tile_no + 1 : ℕ) : ℚ) / (total_tiles : ℚ) * 100 := by
        rw [div_eq_mul_inv, div_eq_mul_inv]
        have h2 : (tile_no : ℚ) * ((total_tiles : ℚ))⁻¹ ≤
            ((tile_no + 1 : ℕ) : ℚ) * ((total_tiles : ℚ))⁻¹ :=
          mul_le_mul_of_nonneg_right h1 (inv_nonneg.mpr (Nat.cast_nonneg _))
        exact mul_le_mul_of_nonneg_right h2 (by norm_num)
      have hlist :
          (process_loop total_tiles canceled (r + 1) tile_no).filterMap progressValue
          = ((tile_no : ℚ) / (total_tiles : ℚ) * 100) ::
            (process_loop total_tiles canceled r (tile_no + 1)).filterMap progressValue := by
        simp [process_loop, hc, progressValue, List.filterMap_cons]
      rw [hlist]
      refine ⟨List.pairwise_cons.mpr ⟨fun q hq => hstep.trans (ihb q hq), ihp⟩, ?_⟩
      intro q hq
      rcases List.mem_cons.mp hq with h | h
      · exact h ▸ le_refl _
      · exact hstep.trans (ihb q h)

/-- Helper: every tile event of the loop trace is immediately preceded by the
progress report of exactly that tile number. -/
theorem process_loop_progress_before (total_tiles : ℕ) (canceled : ℕ → Bool) :
    ∀ remaining tile_no i m,
      (process_loop total_tiles canceled remaining tile_no)[i]? =
        some (.tile m) →
      ∃ j, i = j + 1 ∧
        (process_loop total_tiles canceled remaining tile_no)[j]? =
          some (.progress ((m : ℚ) / (total_tiles : ℚ) * 100)) := by
  intro remaining
  induction remaining with
  | zero => intro tile_no i m h; simp [process_loop] at h
  | succ r ih =>
    intro tile_no i m h
    by_cases hc : canceled tile_no
    · simp [process_loop, hc] at h
    · have heq : process_loop total_tiles canceled (r + 1) tile_no =
          .progress ((tile_no : ℚ) / (total_tiles : ℚ) * 100) :: .tile tile_no ::
            process_loop total_tiles canceled r (tile_no + 1) := by
        simp [process_loop, hc]
      rw [heq] at h ⊢
      rcases i with _ | i
      · simp at h
      rcases i with _ | n
      · have hm : tile_no = m := by simpa using h
        exact ⟨0, rfl, by simp [hm]⟩
      · simp only [List.getElem?_cons_succ] at h
        obtain ⟨j, hij, hj⟩ := ih (tile_no + 1) n m h
        exact ⟨j + 2, by omega, by simpa using hj⟩

/-- C6 (amended): during the stitching loop of `MapProcessor._process`,
`progress = tile_no / total_tiles * 100` is reported immediately BEFORE each
tile is processed (the `setProgress` call at lines 305-306 precedes the tile's
processing at lines 314-323, and nothing is reported after the last tile),
and over any complete or cancelled run the sequence of reported progress
values is monotonically non-decreasing. -/
theorem progress_sequence_monotone (x_bins_number y_bins_number : ℕ)
    (canceled : ℕ → Bool) :
    List.Pairwise (· ≤ ·)
      ((process_trace x_bins_number y_bins_number canceled).filterMap progressValue) ∧
    ∀ i m,
      (process_trace x_bins_number y_bins_number canceled)[i]? = some (.tile m) →
      ∃ j, i = j + 1 ∧
        (process_trace x_bins_number y_bins_number canceled)[j]? =
          some (.progress ((m : ℚ) / ((x_bins_number * y_bins_number : ℕ) : ℚ) * 100)) :=
  ⟨(process_loop_progress_sorted _ _ _ _).1,
   fun i m h => process_loop_progress_before _ _ _ _ i m h⟩

/-- Witness for `progress_sequence_monotone` at a concrete input: in the
complete run over a 1 × 1 grid, the tile event at index 1 is immediately
preceded (at index 0) by the progress report `0/1*100`. -/
theorem progress_sequence_monotone_witness :
    (process_trace 1 1 (fun _ => false))[0]? =
      some (.progress (((0 : ℕ) : ℚ) / (((1 * 1 : ℕ)) : ℚ) * 100)) := by
  obtain ⟨j, hj, hp⟩ := (progress_sequence_monotone 1 1 (fun _ => false)).2 1 0 rfl
  have hj0 : j = 0 := by omega
  rwa [hj0] at hp

/-- C6 counterexample to the claim as stated: in a complete run over a one-tile
grid the only progress report (value 0 = 0/1*100) is emitted before the tile
is processed, and the trace ends with the tile event, so no progress value is
reported after the tile is processed. -/
theorem progress_not_reported_after_tile :
    process_trace 1 1 (fun _ => false) =
      [.progress 0, .tile 0] ∧
    (process_trace 1 1 (fun _ => false)).getLast? = some (.tile 0) := by
  have h0 : ((0 : ℕ) : ℚ) / ((1 * 1 : ℕ) : ℚ) * 100 = 0 := by norm_num
  constructor <;> simp [process_trace, process_loop, h0]

/-- Helper: Python `int()` agrees with the floor for non-negative arguments. -/
theorem pyInt_eq_floor_of_nonneg (q : ℚ) (h : 0 ≤ q) : pyInt q = ⌊q⌋ := by
  simp [pyInt, h]

/-- Helper: snapping one bound `b ≥ origin` with truncation lands on a grid
point in `[b - spacing, b]`. -/
theorem snap_bound_le (b s sp : ℚ) (hsp : 0 < sp) (hb : s ≤ b) :
    s ≤ s + (pyInt ((b - s) / sp) : ℚ) * sp ∧
    s + (pyInt ((b - s) / sp) : ℚ) * sp ≤ b ∧
    b - (s + (pyInt ((b - s) / sp) : ℚ) * sp) < sp := by
  have hq : (0 : ℚ) ≤ (b - s) / sp := div_nonneg (by linarith) hsp.le
  rw [pyInt_eq_floor_of_nonneg _ hq]
  have hf0 : (0 : ℤ) ≤ ⌊(b - s) / sp⌋ := Int.floor_nonneg.mpr hq
  have hfle : (⌊(b - s) / sp⌋ : ℚ) ≤ (b - s) / sp := Int.floor_le _
  have hflt : (b - s) / sp < (⌊(b - s) / sp⌋ : ℚ) + 1 := Int.lt_floor_add_one _
  have hmul_le : (⌊(b - s) / sp⌋ : ℚ) * sp ≤ (b - s) / sp * sp :=
    mul_le_mul_of_nonneg_right hfle hsp.le
  have hmul_lt : (b - s) / sp * sp < ((⌊(b - s) / sp⌋ : ℚ) + 1) * sp :=
    (mul_lt_mul_right hsp).mpr hflt
  have hcancel : (b - s) / sp * sp = b - s := div_mul_cancel₀ _ (ne_of_gt hsp)
  have hnn : (0 : ℚ) ≤ (⌊(b - s) / sp⌋ : ℚ) * sp := by
    apply mul_nonneg _ hsp.le
    exact_mod_cast hf0
  refine ⟨by linarith, by nlinarith, by nlinarith⟩

/-- C5 (amended): `round_extent_to_rlayer_grid` snaps each of the four bounds
to the raster grid using Python `int()`, i.e. truncation toward zero (not
floor); each output bound is `origin + k * spacing` for an integer `k`, and
for every bound that is at least the grid origin (the only situation arising
after intersection with the raster extent) the snapped bound satisfies
`origin ≤ snapped ≤ bound < snapped + spacing`, so the bound moves downward
by less than one grid spacing. -/
theorem round_extent_to_rlayer_grid_snaps (extent : QRect)
    (grid_start grid_spacing : ℚ × ℚ)
    (hx : 0 < grid_spacing.1) (hy : 0 < grid_spacing.2) :
    (∃ k : ℤ, (round_extent_to_rlayer_grid extent grid_start grid_spacing).xMin
      = grid_start.1 + (k : ℚ) * grid_spacing.1) ∧
    (∃ k : ℤ, (round_extent_to_rlayer_grid extent grid_start grid_spacing).xMax
      = grid_start.1 + (k : ℚ) * grid_spacing.1) ∧
    (∃ k : ℤ, (round_extent_to_rlayer_grid extent grid_start grid_spacing).yMin
      = grid_start.2 + (k : ℚ) * grid_spacing.2) ∧
    (∃ k : ℤ, (round_extent_to_rlayer_grid extent grid_start grid_spacing).yMax
      = grid_start.2 + (k : ℚ) * grid_spacing.2) ∧
    (grid_start.1 ≤ extent.xMin →
      grid_start.1 ≤ (round_extent_to_rlayer_grid extent grid_start grid_spacing).xMin ∧
      (round_extent_to_rlayer_grid extent grid_start grid_spacing).xMin ≤ extent.xMin ∧
      extent.xMin - (round_extent_to_rlayer_grid extent grid_start grid_spacing).xMin
        < grid_spacing.1) ∧
    (grid_start.1 ≤ extent.xMax →
      grid_start.1 ≤ (round_extent_to_rlayer_grid extent grid_start grid_spacing).xMax ∧
      (round_extent_to_rlayer_grid extent grid_start grid_spacing).xMax ≤ extent.xMax ∧
      extent.xMax - (round_extent_to_rlayer_grid extent grid_start grid_spacing).xMax
        < grid_spacing.1) ∧
    (grid_start.2 ≤ extent.yMin →
      grid_start.2 ≤ (round_extent_to_rlayer_grid extent grid_start grid_spacing).yMin ∧
      (round_extent_to_rlayer_grid extent grid_start grid_spacing).yMin ≤ extent.yMin ∧
      extent.yMin - (round_extent_to_rlayer_grid extent grid_start grid_spacing).yMin
        < grid_spacing.2) ∧
    (grid_start.2 ≤ extent.yMax →
      grid_start.2 ≤ (round_extent_to_rlayer_grid extent grid_start grid_spacing).yMax ∧
      (round_extent_to_rlayer_grid extent grid_start grid_spacing).yMax ≤ extent.yMax ∧
      extent.yMax - (round_extent_to_rlayer_grid extent grid_start grid_spacing).yMax
        < grid_spacing.2) := by
  simp only [round_extent_to_rlayer_grid]
  refine ⟨⟨_, rfl⟩, ⟨_, rfl⟩, ⟨_, rfl⟩, ⟨_, rfl⟩, ?_, ?_, ?_, ?_⟩ <;> intro hb
  · exact snap_bound_le extent.xMin grid_start.1 grid_spacing.1 hx hb
  · exact snap_bound_le extent.xMax grid_start.1 grid_spacing.1 hx hb
  · exact snap_bound_le extent.yMin grid_start.2 grid_spacing.2 hy hb
  · exact snap_bound_le extent.yMax grid_start.2 grid_spacing.2 hy hb

/-- Witness for `round_extent_to_rlayer_grid_snaps` at a concrete input:
extent `(1/2, 1/2)-(3, 3)`, grid origin `(0, 0)`, spacing `(1, 1)`. -/
theorem round_extent_to_rlayer_grid_snaps_witness :
    (0 : ℚ) < (((1 : ℚ), (1 : ℚ)) : ℚ × ℚ).1 ∧
    ((0 : ℚ) ≤ ((⟨1/2, 1/2, 3, 3⟩ : QRect)).xMin →
      (0 : ℚ) ≤ (round_extent_to_rlayer_grid ⟨1/2, 1/2, 3, 3⟩ (0, 0) (1, 1)).xMin ∧
      (round_extent_to_rlayer_grid ⟨1/2, 1/2, 3, 3⟩ (0, 0) (1, 1)).xMin ≤ 1/2 ∧
      1/2 - (round_extent_to_rlayer_grid ⟨1/2, 1/2, 3, 3⟩ (0, 0) (1, 1)).xMin < 1) :=
  ⟨by norm_num,
   (round_extent_to_rlayer_grid_snaps ⟨1/2, 1/2, 3, 3⟩ (0, 0) (1, 1)
      (by norm_num) (by norm_num)).2.2.2.2.1⟩

/-- C5 counterexample to the claim as stated: for a bound below the grid
origin, `int()` truncates toward zero, not downward.  With origin 0, spacing
1 and `xMin = -1/2` the source computes `0 + int(-1/2) * 1 = 0`,
whereas the floor formula of the claim gives `-1`; the snapped bound `0` is
strictly greater than the input bound `-1/2`. -/
theorem round_extent_to_rlayer_grid_truncates_up :
    (round_extent_to_rlayer_grid ⟨-1/2, 0, 1, 1⟩ (0, 0) (1, 1)).xMin = 0 ∧
    (round_extent_to_rlayer_grid ⟨-1/2, 0, 1, 1⟩ (0, 0) (1, 1)).xMin ≠
      (0 : ℚ) + (⌊((-1/2 : ℚ) - 0) / 1⌋ : ℚ) * 1 ∧
    ¬((round_extent_to_rlayer_grid ⟨-1/2, 0, 1, 1⟩ (0, 0) (1, 1)).xMin ≤ -1/2) := by
  norm_num [round_extent_to_rlayer_grid, pyInt]

/-- Helper: Python `round` commutes with adding an integer whenever the
fractional part is not exactly one half (at a half the round-half-to-even
tie-break depends on the integer part's parity). -/
theorem pyRound_add_int (q : ℚ) (m : ℤ) (h : q - ⌊q⌋ ≠ 1/2) :
    pyRound (q + (m : ℚ)) = pyRound q + m := by
  unfold pyRound
  rw [Int.floor_add_int q m]
  have hfr : q + (m : ℚ) - ((⌊q⌋ + m : ℤ) : ℚ) = q - ⌊q⌋ := by push_cast; ring
  rw [hfr]
  by_cases h1 : q - (⌊q⌋ : ℚ) < 1/2
  · rw [if_pos h1, if_pos h1]
  · by_cases h2 : 1/2 < q - (⌊q⌋ : ℚ)
    · rw [if_neg h1, if_neg h1, if_pos h2, if_pos h2]; ring
    · exact absurd (by linarith : q - (⌊q⌋ : ℚ) = 1/2) h

/-- Helper: Python `round` of a non-negative quantity is non-negative. -/
theorem pyRound_nonneg (q : ℚ) (h : 0 ≤ q) : 0 ≤ pyRound q := by
  unfold pyRound
  have h0 : (0 : ℤ) ≤ ⌊q⌋ := Int.floor_nonneg.mpr h
  split_ifs <;> omega

/-- Helper: dividing a quantity grown by `m` spacings by the spacing adds `m`
to the quotient. -/
theorem pyRound_div_add_mul (tw upp : ℚ) (m : ℤ) (hupp : upp ≠ 0)
    (ht : tw / upp - ⌊tw / upp⌋ ≠ 1/2) :
    pyRound ((tw + (m : ℚ) * upp) / upp) = pyRound (tw / upp) + m := by
  have h : (tw + (m : ℚ) * upp) / upp = tw / upp + (m : ℚ) := by
    rw [add_div, mul_div_assoc, div_self hupp, mul_one]
  rw [h, pyRound_add_int _ _ ht]

/-- Helper: adding the complement of the remainder makes a quantity divisible
by the (positive) modulus, as in lines 481-482 of `map_processor.py`. -/
theorem emod_missing_pixels (a S : ℤ) (hS : 0 < S) :
    (a + (S - a % S) % S) % S = 0 := by
  have h1 : 0 ≤ a % S := Int.emod_nonneg a (ne_of_gt hS)
  have h2 : a % S < S := Int.emod_lt_of_pos a hS
  rcases eq_or_ne (a % S) 0 with h0 | h0
  · rw [h0, sub_zero, Int.emod_self, add_zero, h0]
  · have h3 : (S - a % S) % S = S - a % S :=
      Int.emod_eq_of_lt (by omega) (by omega)
    rw [h3]
    have h5 : S * (a / S) + a % S = a := Int.ediv_add_emod a S
    have h4 : a + (S - a % S) = S * (a / S + 1) := by linarith [h5]
    rw [h4, Int.mul_emod_right]

/-- C2 (amended): provided the padded-and-clamped extent's width and height in
pixels are not exact half-integers (Python's round-half-to-even would
otherwise shift the count by one), the extent returned by
`_calculate_extended_processing_extent` has pixel width and height (each
obtained as `round(dimension / units_per_pixel)`) satisfying
`(dimension_px - tile_size_px) mod stride_px == 0`, and if the
padded-and-clamped extent already measures at most `tile_size_px` pixels in a
dimension, the returned extent measures exactly `tile_size_px` pixels in that
dimension. -/
theorem extended_extent_tiling (base_extent rlayer_extent : QRect)
    (processing_overlap_px tile_size_px stride_px : ℤ) (rlayer_units_per_pixel : ℚ)
    (hupp : 0 < rlayer_units_per_pixel) (hS : 0 < stride_px)
    (htx : (padded_clamped_extent base_extent rlayer_extent processing_overlap_px
        rlayer_units_per_pixel).width / rlayer_units_per_pixel -
      ⌊(padded_clamped_extent base_extent rlayer_extent processing_overlap_px
        rlayer_units_per_pixel).width / rlayer_units_per_pixel⌋ ≠ 1/2)
    (hty : (padded_clamped_extent base_extent rlayer_extent processing_overlap_px
        rlayer_units_per_pixel).height / rlayer_units_per_pixel -
      ⌊(padded_clamped_extent base_extent rlayer_extent processing_overlap_px
        rlayer_units_per_pixel).height / rlayer_units_per_pixel⌋ ≠ 1/2) :
    ((pyRound ((calculate_extended_processing_extent base_extent rlayer_extent
        processing_overlap_px tile_size_px stride_px rlayer_units_per_pixel).width /
        rlayer_units_per_pixel) - tile_size_px) % stride_px = 0 ∧
     (pyRound ((calculate_extended_processing_extent base_extent rlayer_extent
        processing_overlap_px tile_size_px stride_px rlayer_units_per_pixel).height /
        rlayer_units_per_pixel) - tile_size_px) % stride_px = 0) ∧
    (pyRound ((padded_clamped_extent base_extent rlayer_extent processing_overlap_px
        rlayer_units_per_pixel).width / rlayer_units_per_pixel) ≤ tile_size_px →
      pyRound ((calculate_extended_processing_extent base_extent rlayer_extent
        processing_overlap_px tile_size_px stride_px rlayer_units_per_pixel).width /
        rlayer_units_per_pixel) = tile_size_px) ∧
    (pyRound ((padded_clamped_extent base_extent rlayer_extent processing_overlap_px
        rlayer_units_per_pixel).height / rlayer_units_per_pixel) ≤ tile_size_px →
      pyRound ((calculate_extended_processing_extent base_extent rlayer_extent
        processing_overlap_px tile_size_px stride_px rlayer_units_per_pixel).height /
        rlayer_units_per_pixel) = tile_size_px) := by
  have hne : rlayer_units_per_pixel ≠ 0 := ne_of_gt hupp
  have ewidth : (calculate_extended_processing_extent base_extent rlayer_extent
      processing_overlap_px tile_size_px stride_px rlayer_units_per_pixel).width
      = (padded_clamped_extent base_extent rlayer_extent processing_overlap_px
          rlayer_units_per_pixel).width +
        ((if pyRound ((padded_clamped_extent base_extent rlayer_extent
              processing_overlap_px rlayer_units_per_pixel).width /
              rlayer_units_per_pixel) ≤ tile_size_px
          then tile_size_px - pyRound ((padded_clamped_extent base_extent rlayer_extent
              processing_overlap_px rlayer_units_per_pixel).width /
              rlayer_units_per_pixel)
          else (stride_px - (pyRound ((padded_clamped_extent base_extent rlayer_extent
              processing_overlap_px rlayer_units_per_pixel).width /
              rlayer_units_per_pixel) - tile_size_px) % stride_px) % stride_px : ℤ) : ℚ)
          * rlayer_units_per_pixel := by
    simp only [calculate_extended_processing_extent, QRect.width]
    ring
  have eheight : (calculate_extended_processing_extent base_extent rlayer_extent
      processing_overlap_px tile_size_px stride_px rlayer_units_per_pixel).height
      = (padded_clamped_extent base_extent rlayer_extent processing_overlap_px
          rlayer_units_per_pixel).height +
        ((if pyRound ((padded_clamped_extent base_extent rlayer_extent
              processing_overlap_px rlayer_units_per_pixel).height /
              rlayer_units_per_pixel) ≤ tile_size_px
          then tile_size_px - pyRound ((padded_clamped_extent base_extent rlayer_extent
              processing_overlap_px rlayer_units_per_pixel).height /
              rlayer_units_per_pixel)
          else (stride_px - (pyRound ((padded_clamped_extent base_extent rlayer_extent
              processing_overlap_px rlayer_units_per_pixel).height /
              rlayer_units_per_pixel) - tile_size_px) % stride_px) % stride_px : ℤ) : ℚ)
          * rlayer_units_per_pixel := by
    simp only [calculate_extended_processing_extent, QRect.width, QRect.height]
    ring
  have keyx := ewidth ▸ pyRound_div_add_mul
    ((padded_clamped_extent base_extent rlayer_extent processing_overlap_px
        rlayer_units_per_pixel).width) rlayer_units_per_pixel _ hne htx
  have keyy := eheight ▸ pyRound_div_add_mul
    ((padded_clamped_extent base_extent rlayer_extent processing_overlap_px
        rlayer_units_per_pixel).height) rlayer_units_per_pixel _ hne hty
  rw [keyx, keyy]
  refine ⟨⟨?_, ?_⟩, ?_, ?_⟩
  · by_cases hcx : pyRound ((padded_clamped_extent base_extent rlayer_extent
        processing_overlap_px rlayer_units_per_pixel).width / rlayer_units_per_pixel)
        ≤ tile_size_px
    · rw [if_pos hcx]
      rw [show ∀ c : ℤ, c + (tile_size_px - c) - tile_size_px = 0 from fun c => by ring]
      exact Int.zero_emod _
    · rw [if_neg hcx]
      rw [show ∀ c : ℤ, c + (stride_px - (c - tile_size_px) % stride_px) % stride_px
          - tile_size_px
          = (c - tile_size_px) + (stride_px - (c - tile_size_px) % stride_px) % stride_px
        from fun c => by ring]
      exact emod_missing_pixels _ _ hS
  · by_cases hcy : pyRound ((padded_clamped_extent base_extent rlayer_extent
        processing_overlap_px rlayer_units_per_pixel).height / rlayer_units_per_pixel)
        ≤ tile_size_px
    · rw [if_pos hcy]
      rw [show ∀ c : ℤ, c + (tile_size_px - c) - tile_size_px = 0 from fun c => by ring]
      exact Int.zero_emod _
    · rw [if_neg hcy]
      rw [show ∀ c : ℤ, c + (stride_px - (c - tile_size_px) % stride_px) % stride_px
          - tile_size_px
          = (c - tile_size_px) + (stride_px - (c - tile_size_px) % stride_px) % stride_px
        from fun c => by ring]
      exact emod_missing_pixels _ _ hS
  · intro h; rw [if_pos h]; omega
  · intro h; rw [if_pos h]; omega

/-- Witness for `extended_extent_tiling` at a concrete input: base extent
`(0,0)-(10,10)` inside raster extent `(0,0)-(100,100)`, overlap 2 px, tile
size 4 px, stride 2 px, 1 unit per pixel.  The padded-and-clamped extent is
`(0,0)-(11,11)` (11 px), the returned extent is 12 px wide and
`(12 - 4) mod 2 = 0`. -/
theorem extended_extent_tiling_witness :
    (0 : ℚ) < 1 ∧ (0 : ℤ) < 2 ∧
    (((pyRound ((calculate_extended_processing_extent ⟨0, 0, 10, 10⟩
        ⟨0, 0, 100, 100⟩ 2 4 2 1).width / 1) - 4) % 2 = 0 ∧
      (pyRound ((calculate_extended_processing_extent ⟨0, 0, 10, 10⟩
        ⟨0, 0, 100, 100⟩ 2 4 2 1).height / 1) - 4) % 2 = 0) ∧
     (pyRound ((padded_clamped_extent ⟨0, 0, 10, 10⟩ ⟨0, 0, 100, 100⟩ 2 1).width / 1) ≤ 4 →
       pyRound ((calculate_extended_processing_extent ⟨0, 0, 10, 10⟩
        ⟨0, 0, 100, 100⟩ 2 4 2 1).width / 1) = 4) ∧
     (pyRound ((padded_clamped_extent ⟨0, 0, 10, 10⟩ ⟨0, 0, 100, 100⟩ 2 1).height / 1) ≤ 4 →
       pyRound ((calculate_extended_processing_extent ⟨0, 0, 10, 10⟩
        ⟨0, 0, 100, 100⟩ 2 4 2 1).height / 1) = 4)) :=
  ⟨by norm_num, by norm_num,
   extended_extent_tiling ⟨0, 0, 10, 10⟩ ⟨0, 0, 100, 100⟩ 2 4 2 1
     (by norm_num) (by norm_num)
     (by norm_num [padded_clamped_extent, QRect.intersect, QRect.width])
     (by norm_num [padded_clamped_extent, QRect.intersect, QRect.height])⟩

/-- C2 counterexample to the claim as stated: with base extent
`(0,0)-(5/2,3)` inside raster `(0,0)-(100,100)`, overlap 0, tile size 3,
stride 3 and 1 unit per pixel, the padded-and-clamped width is 5/2 units, a
rounding tie.  Python's `round(2.5) = 2 ≤ 3` so one missing pixel is added,
making the width 7/2 units, but `round(3.5) = 4`, so the returned extent
measures 4 px, not 3 px, and `(4 - 3) mod 3 = 1 ≠ 0`. -/
theorem extended_extent_tiling_tie_break :
    pyRound ((padded_clamped_extent ⟨0, 0, 5/2, 3⟩ ⟨0, 0, 100, 100⟩ 0 1).width / 1) ≤ 3 ∧
    pyRound ((calculate_extended_processing_extent ⟨0, 0, 5/2, 3⟩
      ⟨0, 0, 100, 100⟩ 0 3 3 1).width / 1) = 4 ∧
    ¬((pyRound ((calculate_extended_processing_extent ⟨0, 0, 5/2, 3⟩
      ⟨0, 0, 100, 100⟩ 0 3 3 1).width / 1) - 3) % 3 = 0) ∧
    pyRound ((calculate_extended_processing_extent ⟨0, 0, 5/2, 3⟩
      ⟨0, 0, 100, 100⟩ 0 3 3 1).width / 1) ≠ 3 := by
  have hpad : padded_clamped_extent ⟨0, 0, 5/2, 3⟩ ⟨0, 0, 100, 100⟩ 0 1 =
      ⟨0, 0, 5/2, 3⟩ := by
    norm_num [padded_clamped_extent, QRect.intersect, Int.fdiv]
  have hc : pyRound ((5/2 : ℚ) / 1) = 2 := by norm_num [pyRound]
  have hext : calculate_extended_processing_extent ⟨0, 0, 5/2, 3⟩
      ⟨0, 0, 100, 100⟩ 0 3 3 1 = ⟨0, 0, 7/2, 3⟩ := by
    simp only [calculate_extended_processing_extent, hpad]
    norm_num [QRect.width, QRect.height, pyRound]
  rw [hpad, hext]
  norm_num [QRect.width, pyRound]

/-- C9 (amended): the tile-count formula
`round((dimension_px - tile_size_px) / stride_px) + 1` yields a count of at
least 1 whenever the pixel dimension is at least `tile_size_px`; and when the
total tile count is below 1, `_process` raises the generic
`Exception("TODO! Add support for partial tiles!")` — the source contains no
`EmptyAreaError`, and degenerate (non-positive) extent dimensions are not
rejected but silently extended to one full tile (see
`degenerate_extent_extended_without_error`). -/
theorem bins_number_at_least_one
    (img_size_pixels tile_size_px stride_px : ℤ)
    (hS : 0 < stride_px) (hT : tile_size_px ≤ img_size_pixels) :
    1 ≤ bins_number img_size_pixels tile_size_px stride_px ∧
    ∀ total_tiles : ℤ, total_tiles < 1 →
      total_tiles_check total_tiles =
        .error (.exceptionMsg "TODO! Add support for partial tiles!") := by
  constructor
  · have harg : (0 : ℚ) ≤ ((img_size_pixels - tile_size_px : ℤ) : ℚ) / (stride_px : ℚ) := by
      apply div_nonneg
      · exact_mod_cast sub_nonneg.mpr hT
      · exact_mod_cast hS.le
    have := pyRound_nonneg _ harg
    unfold bins_number
    omega
  · intro total_tiles htt
    simp [total_tiles_check, htt]

/-- Witness for `bins_number_at_least_one` at a concrete input: 5 px wide,
tile size 3, stride 3. -/
theorem bins_number_at_least_one_witness :
    (0 : ℤ) < 3 ∧ (3 : ℤ) ≤ 5 ∧
    (1 ≤ bins_number 5 3 3 ∧
     ∀ total_tiles : ℤ, total_tiles < 1 →
       total_tiles_check total_tiles =
         .error (.exceptionMsg "TODO! Add support for partial tiles!")) :=
  ⟨by norm_num, by norm_num,
   bins_number_at_least_one 5 3 3 (by norm_num) (by norm_num)⟩

/-- C9 counterexample to the claim as stated: a degenerate base extent of
width 0 (contained in raster `(0,0)-(100,100)`, overlap 0, tile size 3,
stride 3, 1 unit per pixel) does NOT make the operation fail with an
`EmptyAreaError` — no such class exists in the source: the extent is silently
extended to one full tile (3 px), the tile counts are 1 × 1 and the
total-tiles check passes. -/
theorem degenerate_extent_extended_without_error :
    (calculate_extended_processing_extent ⟨0, 0, 0, 3⟩ ⟨0, 0, 100, 100⟩ 0 3 3 1)
      = ⟨0, 0, 3, 3⟩ ∧
    pyRound ((calculate_extended_processing_extent ⟨0, 0, 0, 3⟩
      ⟨0, 0, 100, 100⟩ 0 3 3 1).width / 1) = 3 ∧
    bins_number 3 3 3 = 1 ∧
    total_tiles_check (bins_number 3 3 3 * bins_number 3 3 3) = .ok () := by
  have hpad : padded_clamped_extent ⟨0, 0, 0, 3⟩ ⟨0, 0, 100, 100⟩ 0 1 =
      ⟨0, 0, 0, 3⟩ := by
    norm_num [padded_clamped_extent, QRect.intersect, Int.fdiv]
  have hbins : bins_number 3 3 3 = 1 := by
    norm_num [bins_number, pyRound]
  have hext : calculate_extended_processing_extent ⟨0, 0, 0, 3⟩
      ⟨0, 0, 100, 100⟩ 0 3 3 1 = ⟨0, 0, 3, 3⟩ := by
    simp only [calculate_extended_processing_extent, hpad]
    norm_num [QRect.width, QRect.height, pyRound]
  refine ⟨hext, ?_, hbins, ?_⟩
  · rw [hext]; norm_num [QRect.width, pyRound]
  · rw [hbins]; norm_num [total_tiles_check]

set_option maxHeartbeats 1000000 in
/-- Helper: specification of the numpy block assignment when the target
region lies inside the buffer, the tile-local region is the full region
shifted by the tile's start pixel, and the mask covers the tile-local
region. -/
theorem np_block_assign_spec (full tile : NpImg2) (rf rt : SliceRect) (sy sx : ℤ)
    (s1 : rt.yMin = rf.yMin - sy) (s2 : rt.yMax = rf.yMax - sy)
    (s3 : rt.xMin = rf.xMin - sx) (s4 : rt.xMax = rf.xMax - sx)
    (h1 : 0 ≤ rf.yMin) (h2 : 0 ≤ rf.xMin)
    (h3 : (rf.yMax + 1).toNat ≤ full.rows) (h4 : (rf.xMax + 1).toNat ≤ full.cols)
    (h5 : 0 ≤ rt.yMin) (h6 : 0 ≤ rt.xMin)
    (h7 : (rt.yMax + 1).toNat ≤ tile.rows) (h8 : (rt.xMax + 1).toNat ≤ tile.cols)
    (h9 : rf.yMin ≤ rf.yMax) (h10 : rf.xMin ≤ rf.xMax) :
    (np_block_assign full tile rf rt).isOk = true ∧
    ∀ res, np_block_assign full tile rf rt = .ok res →
      res.rows = full.rows ∧ res.cols = full.cols ∧
      (∀ y x : ℕ,
        ¬(rf.yMin.toNat ≤ y ∧ y < (rf.yMax + 1).toNat ∧
          rf.xMin.toNat ≤ x ∧ x < (rf.xMax + 1).toNat) →
        res.pix y x = full.pix y x) ∧
      (∀ y x : ℕ,
        (rf.yMin.toNat ≤ y ∧ y < (rf.yMax + 1).toNat ∧
          rf.xMin.toNat ≤ x ∧ x < (rf.xMax + 1).toNat) →
        res.pix y x = tile.pix (rt.yMin.toNat + (y - rf.yMin.toNat))
          (rt.xMin.toNat + (x - rf.xMin.toNat))) := by
  have hcond : (min ((rt.yMax + 1).toNat) tile.rows - min (rt.yMin.toNat) tile.rows
      = min ((rf.yMax + 1).toNat) full.rows - min (rf.yMin.toNat) full.rows ∨
      min ((rt.yMax + 1).toNat) tile.rows - min (rt.yMin.toNat) tile.rows = 1) ∧
      (min ((rt.xMax + 1).toNat) tile.cols - min (rt.xMin.toNat) tile.cols
      = min ((rf.xMax + 1).toNat) full.cols - min (rf.xMin.toNat) full.cols ∨
      min ((rt.xMax + 1).toNat) tile.cols - min (rt.xMin.toNat) tile.cols = 1) := by
    omega
  constructor
  · simp only [np_block_assign]
    rw [if_pos hcond]
    rfl
  · intro res hres
    simp only [np_block_assign] at hres
    rw [if_pos hcond] at hres
    cases hres
    refine ⟨rfl, rfl, ?_, ?_⟩
    · intro y x hout
      show (if min (rf.yMin.toNat) full.rows ≤ y ∧ y < min ((rf.yMax + 1).toNat) full.rows ∧
          min (rf.xMin.toNat) full.cols ≤ x ∧ x < min ((rf.xMax + 1).toNat) full.cols
        then _ else full.pix y x) = _
      rw [if_neg (by omega)]
    · intro y x hin
      show (if min (rf.yMin.toNat) full.rows ≤ y ∧ y < min ((rf.yMax + 1).toNat) full.rows ∧
          min (rf.xMin.toNat) full.cols ≤ x ∧ x < min ((rf.xMax + 1).toNat) full.cols
        then _ else full.pix y x) = _
      rw [if_pos (by omega)]
      have hy : (min (rt.yMin.toNat) tile.rows +
          (if min ((rt.yMax + 1).toNat) tile.rows - min (rt.yMin.toNat) tile.rows = 1
           then 0 else y - min (rf.yMin.toNat) full.rows))
          = rt.yMin.toNat + (y - rf.yMin.toNat) := by
        split_ifs <;> omega
      have hx : (min (rt.xMin.toNat) tile.cols +
          (if min ((rt.xMax + 1).toNat) tile.cols - min (rt.xMin.toNat) tile.cols = 1
           then 0 else x - min (rf.xMin.toNat) full.cols))
          = rt.xMin.toNat + (x - rf.xMin.toNat) := by
        split_ifs <;> omega
      rw [hy, hx]

/-- C7 (amended): `_set_mask_on_full_img` performs no shape validation and the
source contains no `ModelInputError`: any predictor mask large enough to
cover the tile-local copy region is accepted and copied into the output
buffer — even when its dimensions differ from `tile_size_px × tile_size_px`
(see `set_mask_wrong_shape_accepted`).  Under such a mask the copy succeeds,
the buffer keeps its shape, pixels outside the copy region are unchanged and
pixels inside come from the mask at the tile-local offsets.  (A mask too
small for the region makes the underlying numpy assignment raise a
`ValueError` before any element is written, so the buffer is unchanged on
that path — represented here by the `Except.error` result carrying no
buffer.) -/
theorem set_mask_on_full_img_no_shape_validation
    (full_result_img tile_result : NpImg2)
    (tile_size_px stride_px x_bin_number y_bin_number x_bins_number y_bins_number : ℤ)
    (h1 : 0 ≤ (get_slice_on_full_image_for_copying tile_size_px stride_px
      x_bin_number y_bin_number x_bins_number y_bins_number).yMin)
    (h2 : 0 ≤ (get_slice_on_full_image_for_copying tile_size_px stride_px
      x_bin_number y_bin_number x_bins_number y_bins_number).xMin)
    (h3 : ((get_slice_on_full_image_for_copying tile_size_px stride_px
      x_bin_number y_bin_number x_bins_number y_bins_number).yMax + 1).toNat
      ≤ full_result_img.rows)
    (h4 : ((get_slice_on_full_image_for_copying tile_size_px stride_px
      x_bin_number y_bin_number x_bins_number y_bins_number).xMax + 1).toNat
      ≤ full_result_img.cols)
    (h5 : 0 ≤ (get_slice_on_tile_image_for_copying tile_size_px stride_px
      x_bin_number y_bin_number x_bins_number y_bins_number).yMin)
    (h6 : 0 ≤ (get_slice_on_tile_image_for_copying tile_size_px stride_px
      x_bin_number y_bin_number x_bins_number y_bins_number).xMin)
    (h7 : ((get_slice_on_tile_image_for_copying tile_size_px stride_px
      x_bin_number y_bin_number x_bins_number y_bins_number).yMax + 1).toNat
      ≤ tile_result.rows)
    (h8 : ((get_slice_on_tile_image_for_copying tile_size_px stride_px
      x_bin_number y_bin_number x_bins_number y_bins_number).xMax + 1).toNat
      ≤ tile_result.cols)
    (h9 : (get_slice_on_full_image_for_copying tile_size_px stride_px
      x_bin_number y_bin_number x_bins_number y_bins_number).yMin ≤
      (get_slice_on_full_image_for_copying tile_size_px stride_px
      x_bin_number y_bin_number x_bins_number y_bins_number).yMax)
    (h10 : (get_slice_on_full_image_for_copying tile_size_px stride_px
      x_bin_number y_bin_number x_bins_number y_bins_number).xMin ≤
      (get_slice_on_full_image_for_copying tile_size_px stride_px
      x_bin_number y_bin_number x_bins_number y_bins_number).xMax) :
    (set_mask_on_full_img full_result_img tile_result tile_size_px stride_px
      x_bin_number y_bin_number x_bins_number y_bins_number).isOk = true ∧
    ∀ res, set_mask_on_full_img full_result_img tile_result tile_size_px stride_px
        x_bin_number y_bin_number x_bins_number y_bins_number = .ok res →
      res.rows = full_result_img.rows ∧ res.cols = full_result_img.cols ∧
      (∀ y x : ℕ,
        ¬((get_slice_on_full_image_for_copying tile_size_px stride_px
            x_bin_number y_bin_number x_bins_number y_bins_number).yMin.toNat ≤ y ∧
          y < ((get_slice_on_full_image_for_copying tile_size_px stride_px
            x_bin_number y_bin_number x_bins_number y_bins_number).yMax + 1).toNat ∧
          (get_slice_on_full_image_for_copying tile_size_px stride_px
            x_bin_number y_bin_number x_bins_number y_bins_number).xMin.toNat ≤ x ∧
          x < ((get_slice_on_full_image_for_copying tile_size_px stride_px
            x_bin_number y_bin_number x_bins_number y_bins_number).xMax + 1).toNat) →
        res.pix y x = full_result_img.pix y x) ∧
      (∀ y x : ℕ,
        ((get_slice_on_full_image_for_copying tile_size_px stride_px
            x_bin_number y_bin_number x_bins_number y_bins_number).yMin.toNat ≤ y ∧
          y < ((get_slice_on_full_image_for_copying tile_size_px stride_px
            x_bin_number y_bin_number x_bins_number y_bins_number).yMax + 1).toNat ∧
          (get_slice_on_full_image_for_copying tile_size_px stride_px
            x_bin_number y_bin_number x_bins_number y_bins_number).xMin.toNat ≤ x ∧
          x < ((get_slice_on_full_image_for_copying tile_size_px stride_px
            x_bin_number y_bin_number x_bins_number y_bins_number).xMax + 1).toNat) →
        res.pix y x = tile_result.pix
          ((get_slice_on_tile_image_for_copying tile_size_px stride_px
            x_bin_number y_bin_number x_bins_number y_bins_number).yMin.toNat +
            (y - (get_slice_on_full_image_for_copying tile_size_px stride_px
              x_bin_number y_bin_number x_bins_number y_bins_number).yMin.toNat))
          ((get_slice_on_tile_image_for_copying tile_size_px stride_px
            x_bin_number y_bin_number x_bins_number y_bins_number).xMin.toNat +
            (x - (get_slice_on_full_image_for_copying tile_size_px stride_px
              x_bin_number y_bin_number x_bins_number y_bins_number).xMin.toNat))) := by
  exact np_block_assign_spec full_result_img tile_result _ _
    (y_bin_number * stride_px) (x_bin_number * stride_px)
    rfl rfl rfl rfl h1 h2 h3 h4 h5 h6 h7 h8 h9 h10

/-- Witness for `set_mask_on_full_img_no_shape_validation` at a concrete
input: tile size 4, stride 2, tile (0,0) of a 2 × 2 grid, a 6 × 6 output
buffer and a correctly-shaped 4 × 4 mask. -/
theorem set_mask_on_full_img_no_shape_validation_witness :
    (0 : ℤ) ≤ (get_slice_on_full_image_for_copying 4 2 0 0 2 2).yMin ∧
    (set_mask_on_full_img ⟨6, 6, fun _ _ => 0⟩ ⟨4, 4, fun _ _ => 7⟩
      4 2 0 0 2 2).isOk = true :=
  ⟨by decide,
   (set_mask_on_full_img_no_shape_validation ⟨6, 6, fun _ _ => 0⟩
      ⟨4, 4, fun _ _ => 7⟩ 4 2 0 0 2 2 (by decide) (by decide) (by decide)
      (by decide) (by decide) (by decide) (by decide) (by decide) (by decide)
      (by decide)).1⟩

/-- C7 counterexample to the claim as stated: a predictor mask of shape
3 × 3 fed to the stitcher for a tile of size 2 × 2 (single-tile grid, output
buffer 2 × 2) raises NO error — the source contains no `ModelInputError` and
performs no shape check — and the output buffer IS mutated: the copy succeeds
and the buffer's pixel (0,0) becomes the mask's value 7. -/
theorem set_mask_wrong_shape_accepted :
    (set_mask_on_full_img ⟨2, 2, fun _ _ => 0⟩ ⟨3, 3, fun _ _ => 7⟩
      2 2 0 0 1 1).isOk = true ∧
    ((set_mask_on_full_img ⟨2, 2, fun _ _ => 0⟩ ⟨3, 3, fun _ _ => 7⟩
      2 2 0 0 1 1).toOption.map (fun res => res.pix 0 0)) = some 7 ∧
    (⟨3, 3, fun _ _ => 7⟩ : NpImg2).rows ≠ 2 ∧
    (⟨2, 2, fun _ _ => 0⟩ : NpImg2).pix 0 0 = 0 :=
  ⟨rfl, rfl, by decide, rfl⟩

/-- Helper: closed form of the copy-region bounds when the overlap
`tile_size_px - stride_px = 2 * k` is even. -/
theorem get_slice_bounds (tile_size_px stride_px c r X Y k : ℤ)
    (hk : tile_size_px = stride_px + 2 * k) :
    get_slice_on_full_image_for_copying tile_size_px stride_px c r X Y =
      ⟨r * stride_px + (if r = 0 then 0 else k),
       r * stride_px + stride_px + k - 1 + (if r = Y - 1 then k else 0),
       c * stride_px + (if c = 0 then 0 else k),
       c * stride_px + stride_px + k - 1 + (if c = X - 1 then k else 0)⟩ := by
  subst hk
  have hfd : (stride_px + 2 * k - stride_px).fdiv 2 = k := by
    rw [show stride_px + 2 * k - stride_px = 2 * k from by ring]
    exact Int.mul_fdiv_cancel_left k (by norm_num)
  simp only [get_slice_on_full_image_for_copying, hfd, SliceRect.mk.injEq]
  refine ⟨?_, ?_, ?_, ?_⟩ <;> split_ifs <;> ring

/-- Helper: the 1-D core intervals of two different columns are disjoint: the
interval of the smaller column ends strictly before that of the larger one
begins. -/
theorem core_interval_disjoint (S k B c c' : ℤ) (hS : 0 < S) (hk : 0 ≤ k)
    (hc0 : 0 ≤ c) (hcc : c < c') (hcB : c' < B) :
    c * S + S + k - 1 + (if c = B - 1 then k else 0) <
      c' * S + (if c' = 0 then 0 else k) := by
  have hmul : (c + 1) * S ≤ c' * S :=
    mul_le_mul_of_nonneg_right (by omega) hS.le
  have hexp : (c + 1) * S = c * S + S := by ring
  rw [if_neg (by omega), if_neg (by omega)]
  linarith

/-- Helper: every pixel coordinate of a 1-D core interval lies inside the full
output range. -/
theorem core_interval_in_range (S k B c x : ℤ) (hS : 0 < S) (hk : 0 ≤ k)
    (hc0 : 0 ≤ c) (hcB : c < B)
    (hlo : c * S + (if c = 0 then 0 else k) ≤ x)
    (hhi : x ≤ c * S + S + k - 1 + (if c = B - 1 then k else 0)) :
    0 ≤ x ∧ x < (B - 1) * S + (S + 2 * k) := by
  have hm0 : 0 ≤ c * S := mul_nonneg hc0 hS.le
  have hmB : c * S ≤ (B - 1) * S :=
    mul_le_mul_of_nonneg_right (by omega) hS.le
  constructor
  · split_ifs at hlo <;> linarith
  · split_ifs at hhi <;> [skip; skip] <;> [omega; linarith]

/-- Helper: every pixel coordinate of the full output range lies in the core
interval of some column. -/
theorem core_interval_cover (S k B x : ℤ) (hS : 0 < S) (hk : 0 ≤ k)
    (hB : 1 ≤ B) (hx0 : 0 ≤ x) (hxW : x < (B - 1) * S + (S + 2 * k)) :
    ∃ c, 0 ≤ c ∧ c < B ∧ c * S + (if c = 0 then 0 else k) ≤ x ∧
      x ≤ c * S + S + k - 1 + (if c = B - 1 then k else 0) := by
  by_cases hB1 : B = 1
  · subst hB1
    refine ⟨0, le_refl 0, by norm_num, ?_, ?_⟩
    · simp [hx0]
    · rw [if_pos (by norm_num)]
      norm_num
      linarith
  · have hB2 : 2 ≤ B := by omega
    by_cases hx1 : x < S + k
    · refine ⟨0, le_refl 0, by omega, by simp [hx0], ?_⟩
      rw [if_neg (by omega)]
      linarith
    · by_cases hx2 : (B - 1) * S + k ≤ x
      · refine ⟨B - 1, by omega, by omega, ?_, ?_⟩
        · rw [if_neg (by omega)]
          linarith
        · rw [if_pos rfl]
          linarith
      · push_neg at hx1 hx2
        refine ⟨(x - k) / S, ?_, ?_, ?_, ?_⟩ <;>
          [skip; skip; skip; skip]
        all_goals
          have hd := Int.ediv_add_emod (x - k) S
          have hr0 : 0 ≤ (x - k) % S := Int.emod_nonneg (x - k) (ne_of_gt hS)
          have hrS : (x - k) % S < S := Int.emod_lt_of_pos (x - k) hS
          have hq1 : 1 ≤ (x - k) / S := by
            by_contra hq
            push_neg at hq
            have : S * ((x - k) / S) ≤ S * 0 :=
              mul_le_mul_of_nonneg_left (by omega) hS.le
            omega
          have hq2 : (x - k) / S < B - 1 := by
            by_contra hq
            push_neg at hq
            have : S * (B - 1) ≤ S * ((x - k) / S) :=
              mul_le_mul_of_nonneg_left hq hS.le
            have hBS : (B - 1) * S = S * (B - 1) := by ring
            omega
        · omega
        · omega
        · rw [if_neg (by omega)]
          have : ((x - k) / S) * S = S * ((x - k) / S) := by ring
          omega
        · rw [if_neg (by omega)]
          have : ((x - k) / S) * S = S * ((x - k) / S) := by ring
          omega

/-- C1: for every grid specification with positive tile size, positive stride
at most the tile size and even overlap, and every tile grid with at least one
tile in each dimension, the `core_region_full` rectangles computed by
`get_slice_on_full_image_for_copying` over all `(c, r)` are pairwise
disjoint, their union is exactly the full output pixel rectangle
`[0, (X-1)*stride + tile_size) × [0, (Y-1)*stride + tile_size)`, and
horizontally adjacent tiles have contiguous X-ranges:
`core[c].xMax + 1 = core[c+1].xMin`. -/
theorem core_regions_partition (tile_size_px stride_px X Y : ℤ)
    (hT : 0 < tile_size_px) (hS : 0 < stride_px) (hST : stride_px ≤ tile_size_px)
    (heven : (tile_size_px - stride_px) % 2 = 0) (hX : 1 ≤ X) (hY : 1 ≤ Y) :
    (∀ c r c' r' : ℤ, 0 ≤ c → c < X → 0 ≤ r → r < Y →
      0 ≤ c' → c' < X → 0 ≤ r' → r' < Y → (c, r) ≠ (c', r') →
      ∀ x y : ℤ,
        ¬((get_slice_on_full_image_for_copying tile_size_px stride_px c r X Y).containsPx x y ∧
          (get_slice_on_full_image_for_copying tile_size_px stride_px c' r' X Y).containsPx x y)) ∧
    (∀ x y : ℤ,
      (0 ≤ x ∧ x < (X - 1) * stride_px + tile_size_px ∧
       0 ≤ y ∧ y < (Y - 1) * stride_px + tile_size_px) ↔
      ∃ c r : ℤ, 0 ≤ c ∧ c < X ∧ 0 ≤ r ∧ r < Y ∧
        (get_slice_on_full_image_for_copying tile_size_px stride_px c r X Y).containsPx x y) ∧
    (∀ c r : ℤ, 0 ≤ c → c + 1 < X → 0 ≤ r → r < Y →
      (get_slice_on_full_image_for_copying tile_size_px stride_px c r X Y).xMax + 1 =
      (get_slice_on_full_image_for_copying tile_size_px stride_px (c + 1) r X Y).xMin) := by
  obtain ⟨k, hk⟩ : ∃ k, tile_size_px = stride_px + 2 * k := by
    refine ⟨(tile_size_px - stride_px) / 2, ?_⟩
    omega
  have hk0 : 0 ≤ k := by omega
  have hWT : (X - 1) * stride_px + tile_size_px = (X - 1) * stride_px + (stride_px + 2 * k) := by
    omega
  have hHT : (Y - 1) * stride_px + tile_size_px = (Y - 1) * stride_px + (stride_px + 2 * k) := by
    omega
  refine ⟨?_, ?_, ?_⟩
  · intro c r c' r' hc0 hcX hr0 hrY hc0' hcX' hr0' hrY' hne x y hboth
    obtain ⟨hm, hm'⟩ := hboth
    rw [get_slice_bounds tile_size_px stride_px c r X Y k hk] at hm
    rw [get_slice_bounds tile_size_px stride_px c' r' X Y k hk] at hm'
    obtain ⟨hmx1, hmx2, hmy1, hmy2⟩ := hm
    obtain ⟨hmx1', hmx2', hmy1', hmy2'⟩ := hm'
    rcases lt_trichotomy c c' with hcc | hcc | hcc
    · have := core_interval_disjoint stride_px k X c c' hS hk0 hc0 hcc hcX'
      simp only at hmx1 hmx2 hmx1' hmx2'
      linarith
    · subst hcc
      have hrr : r ≠ r' := by
        intro h
        exact hne (by rw [h])
      rcases lt_or_gt_of_ne hrr with hlt | hgt
      · have := core_interval_disjoint stride_px k Y r r' hS hk0 hr0 hlt hrY'
        simp only at hmy1 hmy2 hmy1' hmy2'
        linarith
      · have := core_interval_disjoint stride_px k Y r' r hS hk0 hr0' hgt hrY
        simp only at hmy1 hmy2 hmy1' hmy2'
        linarith
    · have := core_interval_disjoint stride_px k X c' c hS hk0 hc0' hcc hcX
      simp only at hmx1 hmx2 hmx1' hmx2'
      linarith
  · intro x y
    constructor
    · rintro ⟨hx0, hxW, hy0, hyW⟩
      rw [hWT] at hxW
      rw [hHT] at hyW
      obtain ⟨c, hc0, hcX, hclo, hchi⟩ :=
        core_interval_cover stride_px k X x hS hk0 hX hx0 hxW
      obtain ⟨r, hr0, hrY, hrlo, hrhi⟩ :=
        core_interval_cover stride_px k Y y hS hk0 hY hy0 hyW
      refine ⟨c, r, hc0, hcX, hr0, hrY, ?_⟩
      rw [get_slice_bounds tile_size_px stride_px c r X Y k hk]
      exact ⟨hclo, hchi, hrlo, hrhi⟩
    · rintro ⟨c, r, hc0, hcX, hr0, hrY, hmem⟩
      rw [get_slice_bounds tile_size_px stride_px c r X Y k hk] at hmem
      obtain ⟨hmx1, hmx2, hmy1, hmy2⟩ := hmem
      have hxr := core_interval_in_range stride_px k X c x hS hk0 hc0 hcX hmx1 hmx2
      have hyr := core_interval_in_range stride_px k Y r y hS hk0 hr0 hrY hmy1 hmy2
      rw [hWT, hHT]
      exact ⟨hxr.1, hxr.2, hyr.1, hyr.2⟩
  · intro c r hc0 hcX hr0 hrY
    rw [get_slice_bounds tile_size_px stride_px c r X Y k hk,
      get_slice_bounds tile_size_px stride_px (c + 1) r X Y k hk]
    simp only
    rw [if_neg (by omega), if_neg (by omega)]
    ring

/-- Witness for `core_regions_partition` at a concrete grid: tile size 4,
stride 2 (overlap 2, even), a 2 × 2 tile grid. -/
theorem core_regions_partition_witness :
    (0 : ℤ) < 4 ∧ (0 : ℤ) < 2 ∧ (2 : ℤ) ≤ 4 ∧ ((4 : ℤ) - 2) % 2 = 0 ∧
    (1 : ℤ) ≤ 2 ∧
    ((∀ c r c' r' : ℤ, 0 ≤ c → c < 2 → 0 ≤ r → r < 2 →
      0 ≤ c' → c' < 2 → 0 ≤ r' → r' < 2 → (c, r) ≠ (c', r') →
      ∀ x y : ℤ,
        ¬((get_slice_on_full_image_for_copying 4 2 c r 2 2).containsPx x y ∧
          (get_slice_on_full_image_for_copying 4 2 c' r' 2 2).containsPx x y)) ∧
    (∀ x y : ℤ,
      (0 ≤ x ∧ x < (2 - 1) * 2 + 4 ∧ 0 ≤ y ∧ y < (2 - 1) * 2 + 4) ↔
      ∃ c r : ℤ, 0 ≤ c ∧ c < 2 ∧ 0 ≤ r ∧ r < 2 ∧
        (get_slice_on_full_image_for_copying 4 2 c r 2 2).containsPx x y) ∧
    (∀ c r : ℤ, 0 ≤ c → c + 1 < 2 → 0 ≤ r → r < 2 →
      (get_slice_on_full_image_for_copying 4 2 c r 2 2).xMax + 1 =
      (get_slice_on_full_image_for_copying 4 2 (c + 1) r 2 2).xMin)) :=
  ⟨by norm_num, by norm_num, by norm_num, by norm_num, by norm_num,
   core_regions_partition 4 2 2 2 (by norm_num) (by norm_num) (by norm_num)
     (by norm_num) (by norm_num) (by norm_num)⟩

end Deepness
